import Mathlib

/-!
Verification of the commit/PR reconciliation, context budgeting and
release-description update logic of the `github-release-customer-impact-summary-action`
repository.  Text is modelled as `List Char` (the `.data` of Lean string
literals); JavaScript strings, regular-expression matching and truthiness
are embedded explicitly where they matter.
-/

/-- A commit's inner `commit` object: only the `message` field is read. -/
structure CommitInner where
  message : String
deriving DecidableEq

/-- A commit record as returned by the compare-commits API; the code reads
`commit.commit.message`. -/
structure CommitRecord where
  commit : CommitInner
deriving DecidableEq

/-- The literal searched for by the regex `/Merge pull request #(\d+)/`. -/
def mergeNeedle : List Char := "Merge pull request #".data

/-- The literal tested by `message.includes("from umanai/development")`. -/
def devNeedle : List Char := "from umanai/development".data

/-- `parseInt(digits, 10)` on a run of decimal digits. -/
def digitsToNat (ds : List Char) : Nat :=
  ds.foldl (fun n c => n * 10 + (c.toNat - '0'.toNat)) 0

/-- Attempt the regex `Merge pull request #(\d+)` anchored at the start of
`s`: the literal prefix must match and at least one digit must follow;
`\d+` is greedy, so the capture is the maximal digit run. -/
def matchMergeAt (s : List Char) : Option Nat :=
  if mergeNeedle.isPrefixOf s then
    let ds := (s.drop mergeNeedle.length).takeWhile Char.isDigit
    if ds.isEmpty then none else some (digitsToNat ds)
  else none

/-- Left-to-right regex search: try each start position in turn, as the
JavaScript engine does for `message.match(/Merge pull request #(\d+)/)`. -/
def findMergeNumber : List Char → Option Nat
  | [] => none
  | c :: rest =>
    match matchMergeAt (c :: rest) with
    | some n => some n
    | none => findMergeNumber rest

/-- `hay.includes(needle)` of JavaScript strings. -/
def containsSub (needle : List Char) : List Char → Bool
  | [] => needle.isEmpty
  | c :: rest => needle.isPrefixOf (c :: rest) || containsSub needle rest

/-- The `prNumber` variable of the `commits.forEach` loop in
`extractPRNumbers` (src/index.js lines 137-143): a merge-commit match that
is not a development merge. -/
def extractCandidate (c : CommitRecord) : Option Nat :=
  match findMergeNumber c.commit.message.data with
  | some n => if containsSub devNeedle c.commit.message.data then none else some n
  | none => none

/-- The JavaScript truthiness guard `if (prNumber)` (src/index.js line
145): `null` and the number 0 are both falsy, so a parsed 0 is dropped. -/
def extractTruthy : Option Nat → Option Nat
  | some n => if n == 0 then none else some n
  | none => none

/-- The body of the `commits.forEach` loop in `extractPRNumbers`
(src/index.js lines 132-161): the candidate number, kept only when truthy. -/
def extractOneMain (c : CommitRecord) : Option Nat :=
  extractTruthy (extractCandidate c)

/-- `prNumbers.add(n)` on a JavaScript `Set`: insertion order is kept,
an already-present element is ignored. -/
def insertPR (acc : List Nat) (n : Nat) : List Nat :=
  if n ∈ acc then acc else acc ++ [n]

/-- `extractPRNumbers` generic in the per-commit extraction rule (the two
entry points of the repository share the `Set`-accumulation mechanism and
differ only in the rule). -/
def extractPRNumbersWith (f : CommitRecord → Option Nat)
    (commits : List CommitRecord) : List Nat :=
  commits.foldl (fun acc c =>
    match f c with
    | some n => insertPR acc n
    | none => acc) []

/-- `extractPRNumbers` of src/index.js: collect PR numbers from merge
commit messages into a `Set`, then spread to an array. -/
def extractPRNumbers (commits : List CommitRecord) : List Nat :=
  extractPRNumbersWith extractOneMain commits

/-- First-occurrence deduplication of a stream of numbers: the reference
behaviour of accumulating into a JavaScript `Set` and spreading it. -/
def dedupF : List Nat → List Nat
  | [] => []
  | n :: rest => n :: dedupF (rest.filter (fun m => m != n))
termination_by s => s.length
decreasing_by
  simp only [List.length_cons]
  exact Nat.lt_succ_of_le (List.length_filter_le _ _)

theorem mem_dedupF (s : List Nat) (a : Nat) : a ∈ dedupF s ↔ a ∈ s := by
  induction s using dedupF.induct with
  | case1 => simp [dedupF]
  | case2 n rest ih =>
    simp only [dedupF, List.mem_cons, ih, List.mem_filter, bne_iff_ne]
    constructor
    · rintro (rfl | ⟨h, _⟩)
      · exact Or.inl rfl
      · exact Or.inr h
    · rintro (rfl | h)
      · exact Or.inl rfl
      · by_cases hn : a = n
        · exact Or.inl hn
        · exact Or.inr ⟨h, hn⟩

theorem nodup_dedupF (s : List Nat) : (dedupF s).Nodup := by
  induction s using dedupF.induct with
  | case1 => simp [dedupF]
  | case2 n rest ih =>
    simp only [dedupF, List.nodup_cons]
    refine ⟨?_, ih⟩
    intro hmem
    have h := List.mem_filter.1 ((mem_dedupF _ _).1 hmem)
    simp [bne_iff_ne] at h

theorem indexOf_filter_lt (p : Nat → Bool) (s : List Nat) :
    ∀ a b : Nat, p a = true → p b = true →
      List.indexOf a (s.filter p) < List.indexOf b (s.filter p) →
      List.indexOf a s < List.indexOf b s := by
  induction s with
  | nil => intro a b _ _ hlt; simp at hlt
  | cons h t ih =>
    intro a b pa pb hlt
    by_cases hp : p h = true
    · rw [List.filter_cons_of_pos hp] at hlt
      by_cases hba : b = h
      · subst hba
        rw [List.indexOf_cons_self] at hlt
        exact absurd hlt (Nat.not_lt_zero _)
      · have hbh : h ≠ b := fun e => hba e.symm
        by_cases hab : a = h
        · subst hab
          rw [List.indexOf_cons_self, List.indexOf_cons_ne _ hbh]
          exact Nat.succ_pos _
        · have hah : h ≠ a := fun e => hab e.symm
          rw [List.indexOf_cons_ne _ hah, List.indexOf_cons_ne _ hbh] at hlt
          rw [List.indexOf_cons_ne _ hah, List.indexOf_cons_ne _ hbh]
          exact Nat.succ_lt_succ (ih a b pa pb (Nat.lt_of_succ_lt_succ hlt))
    · rw [List.filter_cons_of_neg hp] at hlt
      have hah : h ≠ a := fun e => hp (by rw [e]; exact pa)
      have hbh : h ≠ b := fun e => hp (by rw [e]; exact pb)
      rw [List.indexOf_cons_ne _ hah, List.indexOf_cons_ne _ hbh]
      exact Nat.succ_lt_succ (ih a b pa pb hlt)

theorem pairwise_dedupF (s : List Nat) :
    (dedupF s).Pairwise (fun a b => List.indexOf a s < List.indexOf b s) := by
  induction s using dedupF.induct with
  | case1 => simp [dedupF]
  | case2 n rest ih =>
    simp only [dedupF]
    refine List.Pairwise.cons ?_ ?_
    · intro b hb
      have hbr := List.mem_filter.1 ((mem_dedupF _ _).1 hb)
      have hbn : b ≠ n := by simpa [bne_iff_ne] using hbr.2
      rw [List.indexOf_cons_self, List.indexOf_cons_ne _ (fun e => hbn e.symm)]
      exact Nat.succ_pos _
    · refine ih.imp_of_mem ?_
      intro a b ha hb hab
      have har := List.mem_filter.1 ((mem_dedupF _ _).1 ha)
      have hbr := List.mem_filter.1 ((mem_dedupF _ _).1 hb)
      have han : a ≠ n := by simpa [bne_iff_ne] using har.2
      have hbn : b ≠ n := by simpa [bne_iff_ne] using hbr.2
      have hrest : List.indexOf a rest < List.indexOf b rest :=
        indexOf_filter_lt (fun m => m != n) rest a b
          (by simpa [bne_iff_ne] using han) (by simpa [bne_iff_ne] using hbn) hab
      rw [List.indexOf_cons_ne _ (fun e => han e.symm),
        List.indexOf_cons_ne _ (fun e => hbn e.symm)]
      exact Nat.succ_lt_succ hrest

theorem foldl_insertPR (s : List Nat) :
    ∀ acc : List Nat,
      s.foldl insertPR acc = acc ++ dedupF (s.filter (fun n => !decide (n ∈ acc))) := by
  induction s with
  | nil => intro acc; simp [dedupF]
  | cons n rest ih =>
    intro acc
    rw [List.foldl_cons]
    by_cases hn : n ∈ acc
    · rw [show insertPR acc n = acc from if_pos hn, ih acc]
      congr 2
      rw [List.filter_cons_of_neg (by simp [hn])]
    · rw [show insertPR acc n = acc ++ [n] from if_neg hn, ih (acc ++ [n])]
      rw [List.filter_cons_of_pos (by simp [hn])]
      conv_rhs => rw [dedupF]
      rw [List.append_assoc, List.singleton_append]
      congr 2
      rw [List.filter_filter]
      congr 1
      apply List.filter_congr
      intro m _
      by_cases h1 : m = n <;> by_cases h2 : m ∈ acc <;>
        simp [h1, h2, List.mem_append]

theorem extractPRNumbersWith_eq (f : CommitRecord → Option Nat)
    (commits : List CommitRecord) :
    extractPRNumbersWith f commits = dedupF (commits.filterMap f) := by
  have h1 : ∀ acc : List Nat,
      commits.foldl (fun acc c =>
        match f c with
        | some n => insertPR acc n
        | none => acc) acc = (commits.filterMap f).foldl insertPR acc := by
    induction commits with
    | nil => intro acc; simp
    | cons c rest ih =>
      intro acc
      cases hfc : f c <;> simp [List.filterMap_cons, hfc, ih]
  rw [extractPRNumbersWith, h1, foldl_insertPR]
  simp

theorem extractTruthy_ne_zero (o : Option Nat) : extractTruthy o ≠ some 0 := by
  cases o with
  | none => simp [extractTruthy]
  | some n =>
    by_cases h : n = 0 <;> simp [extractTruthy, h]

/-- C5: the reference extractor's output has no duplicate pull-request
identifiers and lists identifiers in order of first appearance in the
commit list (measured by position in the stream of per-commit extraction
results, which follows commit order); in particular no numeric sort is
applied. -/
theorem extractPRNumbers_nodup_first_occurrence (commits : List CommitRecord) :
    (extractPRNumbers commits).Nodup ∧
    (extractPRNumbers commits).Pairwise (fun a b =>
      List.indexOf a (commits.filterMap extractOneMain) <
      List.indexOf b (commits.filterMap extractOneMain)) := by
  rw [extractPRNumbers, extractPRNumbersWith_eq]
  exact ⟨nodup_dedupF _, pairwise_dedupF _⟩

/-- C6: in the commit list `["Merge pull request #12 from x/y",
"Merge pull request #34 from umanai/development"]` the second commit
matches the merge pattern but also the excluded-source pattern, so the
extracted reference set is exactly `[12]`. -/
theorem extractPRNumbers_exclusion_scenario :
    extractPRNumbers
      [{ commit := { message := "Merge pull request #12 from x/y" } },
       { commit := { message := "Merge pull request #34 from umanai/development" } }] =
      [12] := by decide

/-- C10: a commit message `Merge pull request #0 from a/b` matches the
merge-style pattern and is not excluded, yet contributes nothing because
the parsed number 0 fails the truthiness guard `if (prNumber)`; in
general the reference 0 can never appear in the extractor's output. -/
theorem extractPRNumbers_zero_never_extracted :
    extractPRNumbers [{ commit := { message := "Merge pull request #0 from a/b" } }] = [] ∧
    ∀ commits : List CommitRecord, 0 ∉ extractPRNumbers commits := by
  constructor
  · decide
  · intro commits h0
    rw [extractPRNumbers, extractPRNumbersWith_eq] at h0
    obtain ⟨c, _, hfc⟩ := List.mem_filterMap.1 ((mem_dedupF _ _).1 h0)
    exact extractTruthy_ne_zero (extractCandidate c) hfc

/-- C10 witness: the general part applied to the concrete one-commit list. -/
theorem extractPRNumbers_zero_never_extracted_witness :
    0 ∉ extractPRNumbers [{ commit := { message := "Merge pull request #0 from a/b" } }] :=
  extractPRNumbers_zero_never_extracted.2 _

/-- A release as returned by the list-releases API; only the fields the
code reads. The API lists releases most-recent-first, so position 0 is
the most recent. -/
structure Release where
  tag_name : List Char
  draft : Bool
  id : Nat
deriving DecidableEq

/-- `getPreviousRelease` of src/index.js (lines 111-123): filter out
draft releases and return `publishedReleases[0] || null`. -/
def getPreviousRelease (releases : List Release) : Option Release :=
  (releases.filter (fun r => !r.draft)).head?

/-- `getPreviousRelease` of src/unnamed/part_000 (lines 58-69): find the
index of the current tag and return `releases[currentIndex + 1] || null`;
`findIndex` yields -1 when absent, making the fallback `releases[0]`. -/
def getPreviousReleaseAlt (releases : List Release) (currentTag : List Char) :
    Option Release :=
  match releases.findIdx? (fun r => r.tag_name == currentTag) with
  | some i => releases[i + 1]?
  | none => releases[0]?

structure PRUser where
  login : List Char
deriving DecidableEq

structure PRLabel where
  name : List Char
deriving DecidableEq

/-- A changed-file record from the list-files API. -/
structure FileChange where
  filename : List Char
  status : List Char
  additions : Nat
  deletions : Nat
  patch : Option (List Char)
deriving DecidableEq

/-- A pull-request detail record; `files` is attached by the fetch loop. -/
structure PRDetail where
  number : Nat
  title : List Char
  user : PRUser
  labels : List PRLabel
  body : Option (List Char)
  changed_files : Nat
  files : List FileChange
deriving DecidableEq

/-- `pr.data.files = files.data` (src/index.js line 234). -/
def withFiles (pr : PRDetail) (fs : List FileChange) : PRDetail :=
  { pr with files := fs }

/-- The log line `Could not fetch PR #<n>: <message>` (src/index.js line 237). -/
def couldNotFetch (n : Nat) (e : List Char) : List Char :=
  "Could not fetch PR #".data ++ (Nat.repr n).data ++ ": ".data ++ e

/-- The per-PR fetch loop of `getPRsInRelease` (src/index.js lines
216-239): fetch the PR detail, then its file list; a failure of either
call is caught, logged, and the PR skipped, then the loop continues. -/
def fetchLoop (get : Nat → Except (List Char) PRDetail)
    (listFiles : Nat → Except (List Char) (List FileChange)) :
    List Nat → List PRDetail × List (List Char)
  | [] => ([], [])
  | n :: rest =>
    match get n with
    | .ok pr =>
      match listFiles n with
      | .ok fs =>
        let r := fetchLoop get listFiles rest
        (withFiles pr fs :: r.1, r.2)
      | .error e =>
        let r := fetchLoop get listFiles rest
        (r.1, couldNotFetch n e :: r.2)
    | .error e =>
      let r := fetchLoop get listFiles rest
      (r.1, couldNotFetch n e :: r.2)

/-- The successful outcome of fetching one PR: detail plus files, `none`
when either call fails. -/
def fetchOk (get : Nat → Except (List Char) PRDetail)
    (listFiles : Nat → Except (List Char) (List FileChange)) (n : Nat) :
    Option PRDetail :=
  match get n with
  | .ok pr =>
    match listFiles n with
    | .ok fs => some (withFiles pr fs)
    | .error _ => none
  | .error _ => none

/-- The error message, if any, raised while fetching one PR (the detail
call first, the file-list call second). -/
def fetchErr (get : Nat → Except (List Char) PRDetail)
    (listFiles : Nat → Except (List Char) (List FileChange)) (n : Nat) :
    Option (List Char) :=
  match get n with
  | .ok _ =>
    match listFiles n with
    | .ok _ => none
    | .error e => some e
  | .error e => some e

def noPrevLog : List Char :=
  "No previous release found, skipping PR collection".data

def couldNotCompare (e : List Char) : List Char :=
  "Could not compare commits: ".data ++ e

/-- `getPRsInRelease` (src/index.js lines 170-246) with the external
calls abstracted as oracles: no previous release yields an empty list; a
compare failure is caught and yields an empty list; otherwise PR numbers
are extracted from the comparison's commits and fetched one by one. -/
def getPRsInRelease (cmp : List Char → Except (List Char) (List CommitRecord))
    (get : Nat → Except (List Char) PRDetail)
    (listFiles : Nat → Except (List Char) (List FileChange))
    (previousRelease : Option Release) : List PRDetail × List (List Char) :=
  match previousRelease with
  | none => ([], [noPrevLog])
  | some prev =>
    match cmp prev.tag_name with
    | .error e => ([], [couldNotCompare e])
    | .ok commits => fetchLoop get listFiles (extractPRNumbers commits)

theorem head?_filter_eq_find? {α : Type} (p : α → Bool) (l : List α) :
    (l.filter p).head? = l.find? p := by
  induction l with
  | nil => rfl
  | cons a t ih =>
    by_cases hp : p a <;> simp [List.filter_cons, List.find?_cons, hp, ih]

def tagV2 : List Char := "v2".data

def tagV1 : List Char := "v1".data

def relDraftCurrent : Release := { tag_name := tagV2, draft := true, id := 1 }

def relDraftOld : Release := { tag_name := tagV1, draft := true, id := 2 }

def relPublished : Release := { tag_name := tagV1, draft := false, id := 3 }

/-- C8 counterexample: in the secondary entry point's resolution
(src/unnamed/part_000), with releases `[current draft, older draft,
published]` and current tag `v2`, the release selected is the older
draft, although a non-draft release other than the current one exists;
so resolution does not select "the most recent release that is not a
draft and not the current release". -/
theorem getPreviousReleaseAlt_selects_draft_cex :
    getPreviousReleaseAlt [relDraftCurrent, relDraftOld, relPublished] tagV2 =
      some relDraftOld ∧
    relDraftOld.draft = true ∧
    relPublished ∈ [relDraftCurrent, relDraftOld, relPublished] ∧
    relPublished.draft = false ∧
    relPublished ≠ relDraftCurrent := by decide

/-- C8 amended: in the main entry point (src/index.js), previous-release
resolution returns the first non-draft release of the listing (the API
lists most-recent-first), which — the current release of that flow being
a draft — is also the first release that is neither a draft nor the
current release; and when no such release exists, `getPRsInRelease`
returns the empty pull-request list together with a log line, not an
error. The secondary entry point's resolution does not follow this
policy (see the counterexample). -/
theorem previousRelease_policy_amended (releases : List Release)
    (current : Release)
    (cmp : List Char → Except (List Char) (List CommitRecord))
    (get : Nat → Except (List Char) PRDetail)
    (listFiles : Nat → Except (List Char) (List FileChange)) :
    (current.draft = true →
      getPreviousRelease releases =
        releases.find? (fun r => !r.draft && !(r == current))) ∧
    (getPreviousRelease releases = none →
      getPRsInRelease cmp get listFiles (getPreviousRelease releases) =
        ([], [noPrevLog])) := by
  constructor
  · intro hdraft
    rw [getPreviousRelease, head?_filter_eq_find?]
    congr 1
    funext r
    by_cases hd : r.draft = true
    · simp [hd]
    · have hne : r ≠ current := by
        intro e
        rw [e, hdraft] at hd
        exact hd rfl
      simp [hd, hne]
  · intro h
    rw [h]
    rfl

def cmpEmpty : List Char → Except (List Char) (List CommitRecord) :=
  fun _ => .ok []

def prSample : PRDetail :=
  { number := 1, title := [], user := { login := [] }, labels := [],
    body := none, changed_files := 0, files := [] }

def boomMsg : List Char := "boom".data

def getSample : Nat → Except (List Char) PRDetail :=
  fun n => if n == 1 then .ok prSample else .error boomMsg

def listFilesSample : Nat → Except (List Char) (List FileChange) :=
  fun _ => .ok []

/-- C8 witness: the amended policy applied to a concrete listing with a
draft current release, and the empty-listing degenerate case. -/
theorem previousRelease_policy_amended_witness :
    getPreviousRelease [relDraftCurrent, relDraftOld, relPublished] =
      [relDraftCurrent, relDraftOld, relPublished].find?
        (fun r => !r.draft && !(r == relDraftCurrent)) ∧
    getPRsInRelease cmpEmpty getSample listFilesSample
      (getPreviousRelease [relDraftCurrent, relDraftOld]) = ([], [noPrevLog]) :=
  ⟨(previousRelease_policy_amended [relDraftCurrent, relDraftOld, relPublished]
      relDraftCurrent cmpEmpty getSample listFilesSample).1 rfl,
   (previousRelease_policy_amended [relDraftCurrent, relDraftOld]
      relDraftCurrent cmpEmpty getSample listFilesSample).2 (by decide)⟩

/-- C9: the per-PR fetch loop is fail-soft — the returned list is exactly
the successful fetches of the reference list in order (a failure of one
PR's detail or file-list call excludes just that PR), and every failing
reference is logged; the loop is total, so the batch never aborts. -/
theorem fetchLoop_fail_soft (get : Nat → Except (List Char) PRDetail)
    (listFiles : Nat → Except (List Char) (List FileChange)) (nums : List Nat) :
    (fetchLoop get listFiles nums).1 = nums.filterMap (fetchOk get listFiles) ∧
    ∀ n ∈ nums, ∀ e, fetchErr get listFiles n = some e →
      couldNotFetch n e ∈ (fetchLoop get listFiles nums).2 := by
  induction nums with
  | nil => exact ⟨rfl, by simp⟩
  | cons n rest ih =>
    constructor
    · cases hg : get n with
      | ok pr =>
        cases hf : listFiles n with
        | ok fs => simp [fetchLoop, hg, hf, List.filterMap_cons, fetchOk, ih.1]
        | error e => simp [fetchLoop, hg, hf, List.filterMap_cons, fetchOk, ih.1]
      | error e => simp [fetchLoop, hg, List.filterMap_cons, fetchOk, ih.1]
    · intro m hm e he
      rcases List.mem_cons.1 hm with rfl | hm'
      · cases hg : get m with
        | error e' =>
          simp only [fetchErr, hg, Option.some.injEq] at he
          subst he
          simp [fetchLoop, hg]
        | ok pr =>
          cases hf : listFiles m with
          | ok fs => simp [fetchErr, hg, hf] at he
          | error e' =>
            simp only [fetchErr, hg, hf, Option.some.injEq] at he
            subst he
            simp [fetchLoop, hg, hf]
      · have hmem := ih.2 m hm' e he
        cases hg : get n with
        | error e' =>
          simp only [fetchLoop, hg]
          exact List.mem_cons_of_mem _ hmem
        | ok pr =>
          cases hf : listFiles n with
          | ok fs =>
            simp only [fetchLoop, hg, hf]
            exact hmem
          | error e' =>
            simp only [fetchLoop, hg, hf]
            exact List.mem_cons_of_mem _ hmem

/-- C9 witness: with a fetcher failing on PR 2 only, the loop over
`[1, 2]` logs PR 2's failure and keeps PR 1. -/
theorem fetchLoop_fail_soft_witness :
    couldNotFetch 2 boomMsg ∈ (fetchLoop getSample listFilesSample [1, 2]).2 :=
  (fetchLoop_fail_soft getSample listFilesSample [1, 2]).2 2 (by decide) boomMsg
    (by decide)

def commaSep : List Char := ", ".data

def nlSep : List Char := "\n".data

/-- `Array.prototype.join(sep)`. -/
def joinSep (sep : List Char) : List (List Char) → List Char
  | [] => []
  | [x] => x
  | x :: xs => x ++ sep ++ joinSep sep xs

/-- JavaScript `a || b` on an optional string: `null`, `undefined` and the
empty string are falsy. -/
def jsOrElse (s : Option (List Char)) (d : List Char) : List Char :=
  match s with
  | some v => if v.isEmpty then d else v
  | none => d

def noDescription : List Char := "No description provided".data

/-- The per-PR header template of `buildPRContext` (src/index.js lines
273-281). -/
def prHeader (pr : PRDetail) : List Char :=
  "\n## PR #".data ++ (Nat.repr pr.number).data ++ ": ".data ++ pr.title ++
  "\n**Author:** ".data ++ pr.user.login ++
  "\n**Labels:** ".data ++ joinSep commaSep (pr.labels.map PRLabel.name) ++
  "\n**Description:**\n".data ++ jsOrElse pr.body noDescription ++
  "\n\n**Files Changed:** ".data ++ (Nat.repr pr.changed_files).data ++
  " files\n".data

/-- Per-file heading and change counts (src/index.js lines 287-288). -/
def fileMeta (f : FileChange) : List Char :=
  "\n### ".data ++ f.filename ++ " (".data ++ f.status ++ ")\n".data ++
  "**Changes:** +".data ++ (Nat.repr f.additions).data ++ " -".data ++
  (Nat.repr f.deletions).data ++ "\n".data

/-- The rendered diff body (src/index.js line 292). -/
def diffIncluded (p : List Char) : List Char :=
  "**Diff:**\n".data ++ "```diff\n".data ++ p ++ "\n```\n".data

/-- The too-large placeholder naming the diff's character size
(src/index.js lines 294-297). -/
def diffOmitted (n : Nat) : List Char :=
  "**Diff:** (too large to include, ".data ++ (Nat.repr n).data ++
  " characters)\n".data

/-- One iteration of the `pr.files.forEach` loop in the with-diffs branch
(src/index.js lines 286-299): `if (file.patch && file.patch.length < 2000)`
renders the diff, `else if (file.patch)` renders the placeholder; an
absent — or empty, hence falsy — patch renders neither. -/
def fileSection (f : FileChange) : List Char :=
  fileMeta f ++
    (match f.patch with
     | some p =>
       if p.isEmpty then []
       else if p.length < 2000 then diffIncluded p
       else diffOmitted p.length
     | none => [])

/-- One line of the file list in the without-diffs branch (src/index.js
lines 300-306). -/
def fileListLine (f : FileChange) : List Char :=
  "- ".data ++ f.filename ++ " (".data ++ f.status ++ ", +".data ++
  (Nat.repr f.additions).data ++ " -".data ++ (Nat.repr f.deletions).data ++
  ")\n".data

def fileChangesHeader : List Char := "\n**File Changes:**\n".data

def filesChangedHeader : List Char := "\n**Files Changed:**\n".data

/-- The per-PR block of `buildPRContext` (src/index.js lines 272-310):
header, then either the diff sections (`includeDiffs` and files present),
or the bare file list (no diffs and files present), then the `---`
separator. The `forEach` string accumulation is rendered as map-and-join. -/
def prBlock (includeDiffs : Bool) (pr : PRDetail) : List Char :=
  prHeader pr ++
    (if includeDiffs && !pr.files.isEmpty then
      fileChangesHeader ++ (pr.files.map fileSection).flatten
    else if !includeDiffs && !pr.files.isEmpty then
      filesChangedHeader ++ (pr.files.map fileListLine).flatten
    else []) ++
  "\n---\n".data

/-- `buildPRContext` (src/index.js lines 270-312): map each PR to its
block and join with a newline. -/
def buildPRContext (prs : List PRDetail) (includeDiffs : Bool) : List Char :=
  joinSep nlSep (prs.map (prBlock includeDiffs))

/-- The prompt template of `generateSummary` (src/index.js lines 320-323
and 339-342, identical in both phases). -/
def promptFor (count : Nat) (releaseName prContext : List Char) : List Char :=
  "Below are the details of ".data ++ (Nat.repr count).data ++
  " pull requests that were included in the \"".data ++ releaseName ++
  "\" release and marked as having client impact.\n\nHere are the pull requests:\n".data ++
  prContext

/-- The prompt built from an impact set with or without diffs. -/
def promptWith (prs : List PRDetail) (releaseName : List Char)
    (includeDiffs : Bool) : List Char :=
  promptFor prs.length releaseName (buildPRContext prs includeDiffs)

/-- `const maxTokens = 1000000` (src/index.js line 327). -/
def maxTokens : Nat := 1000000

/-- Observable trace of one `generateSummary` run: the prompts measured by
`countTokens` with their results, the numeric token counts printed to the
log, the prompt passed to `generateContent` (if reached), and the token
count carried by the size-exceeded error (if thrown). -/
structure SummaryRun where
  measured : List (List Char × Nat)
  logNums : List Nat
  generated : Option (List Char)
  sizeError : Option Nat
deriving DecidableEq

/-- `generateSummary` (src/index.js lines 317-366) with `countTokens`
abstracted as a cost oracle: measure the with-diffs prompt; if over
`maxTokens`, rebuild without diffs and measure again; if still over,
throw carrying the new count; otherwise generate with the surviving
prompt. Log lines 329, 332-334 and 344-346 print the measured counts. -/
def generateSummary (cost : List Char → Nat) (prs : List PRDetail)
    (releaseName : List Char) : SummaryRun :=
  let prompt1 := promptWith prs releaseName true
  let tokenCount := cost prompt1
  if tokenCount > maxTokens then
    let prompt2 := promptWith prs releaseName false
    let newTokenCount := cost prompt2
    if newTokenCount > maxTokens then
      { measured := [(prompt1, tokenCount), (prompt2, newTokenCount)],
        logNums := [tokenCount, tokenCount, maxTokens, newTokenCount],
        generated := none, sizeError := some newTokenCount }
    else
      { measured := [(prompt1, tokenCount), (prompt2, newTokenCount)],
        logNums := [tokenCount, tokenCount, maxTokens, newTokenCount],
        generated := some prompt2, sizeError := none }
  else
    { measured := [(prompt1, tokenCount)], logNums := [tokenCount],
      generated := some prompt1, sizeError := none }

/-- The numbers surfaced by a run's failure diagnostics: logged token
counts plus the count carried by the thrown error. -/
def surfacedNumbers (r : SummaryRun) : List Nat :=
  r.logNums ++
    (match r.sizeError with
     | some n => [n]
     | none => [])

/-- C3: budgeting is two-phase with at most two measurements; a with-diffs
cost at or below the 1,000,000 ceiling proceeds with that rendering after
exactly one measurement and no fallback; a cost above the ceiling causes
exactly one re-render, without diffs for the whole batch. -/
theorem generateSummary_two_phase_budget (cost : List Char → Nat)
    (prs : List PRDetail) (releaseName : List Char) :
    (generateSummary cost prs releaseName).measured.length ≤ 2 ∧
    (cost (promptWith prs releaseName true) ≤ maxTokens →
      (generateSummary cost prs releaseName).measured =
        [(promptWith prs releaseName true, cost (promptWith prs releaseName true))] ∧
      (generateSummary cost prs releaseName).generated =
        some (promptWith prs releaseName true) ∧
      (generateSummary cost prs releaseName).sizeError = none) ∧
    (maxTokens < cost (promptWith prs releaseName true) →
      (generateSummary cost prs releaseName).measured.map Prod.fst =
        [promptWith prs releaseName true, promptWith prs releaseName false]) := by
  by_cases h1 : maxTokens < cost (promptWith prs releaseName true)
  · by_cases h2 : maxTokens < cost (promptWith prs releaseName false)
    · refine ⟨?_, ?_, ?_⟩
      · simp [generateSummary, h1, h2]
      · intro hle
        exact absurd h1 (not_lt.2 hle)
      · intro _
        simp [generateSummary, h1, h2]
    · refine ⟨?_, ?_, ?_⟩
      · simp [generateSummary, h1, h2]
      · intro hle
        exact absurd h1 (not_lt.2 hle)
      · intro _
        simp [generateSummary, h1, h2]
  · refine ⟨?_, ?_, ?_⟩
    · simp [generateSummary, h1]
    · intro _
      simp [generateSummary, h1]
    · intro hlt
      exact absurd hlt h1

def costZero : List Char → Nat := fun _ => 0

def costBig : List Char → Nat := fun _ => 2000000

/-- C3 witness: a cost oracle under the ceiling yields one measurement and
generation with the with-diffs prompt; one over the ceiling yields the two
prompts measured in order. -/
theorem generateSummary_two_phase_budget_witness :
    ((generateSummary costZero [] []).measured =
      [(promptWith [] [] true, costZero (promptWith [] [] true))] ∧
     (generateSummary costZero [] []).generated = some (promptWith [] [] true) ∧
     (generateSummary costZero [] []).sizeError = none) ∧
    (generateSummary costBig [] []).measured.map Prod.fst =
      [promptWith [] [] true, promptWith [] [] false] :=
  ⟨(generateSummary_two_phase_budget costZero [] []).2.1 (by decide),
   (generateSummary_two_phase_budget costBig [] []).2.2 (by decide)⟩

/-- C4: when both renderings measure above the ceiling, the run ends in
the size-exceeded error carrying the without-diffs count, no generation
call is made, and both measured token counts are surfaced by the failure
diagnostics (the with-diffs count on the log, the without-diffs count on
the log and in the error). -/
theorem generateSummary_both_over_budget (cost : List Char → Nat)
    (prs : List PRDetail) (releaseName : List Char)
    (h1 : maxTokens < cost (promptWith prs releaseName true))
    (h2 : maxTokens < cost (promptWith prs releaseName false)) :
    (generateSummary cost prs releaseName).sizeError =
      some (cost (promptWith prs releaseName false)) ∧
    (generateSummary cost prs releaseName).generated = none ∧
    cost (promptWith prs releaseName true) ∈
      surfacedNumbers (generateSummary cost prs releaseName) ∧
    cost (promptWith prs releaseName false) ∈
      surfacedNumbers (generateSummary cost prs releaseName) := by
  simp [generateSummary, surfacedNumbers, h1, h2]

/-- C4 witness: an always-2,000,000 cost oracle ends in the error carrying
2,000,000 with no generation. -/
theorem generateSummary_both_over_budget_witness :
    (generateSummary costBig [] []).sizeError = some 2000000 ∧
    (generateSummary costBig [] []).generated = none :=
  have h := generateSummary_both_over_budget costBig [] [] (by decide) (by decide)
  ⟨h.1, h.2.1⟩

theorem isInfix_of_append (x front back : List Char) (y : List Char)
    (h : x <:+: y) : x <:+: front ++ y ++ back := by
  obtain ⟨s, t, rfl⟩ := h
  exact ⟨front ++ s, t ++ back, by simp [List.append_assoc]⟩

theorem isInfix_flatten_of_mem {x : List Char} {l : List (List Char)}
    (h : x ∈ l) : x <:+: l.flatten := by
  induction l with
  | nil => cases h
  | cons a t ih =>
    rcases List.mem_cons.1 h with rfl | h'
    · exact ⟨[], t.flatten, by simp⟩
    · obtain ⟨s, u, hs⟩ := ih h'
      exact ⟨a ++ s, u, by simp [← hs, List.append_assoc]⟩

theorem isInfix_joinSep_of_mem (sep : List Char) {x : List Char}
    {l : List (List Char)} (h : x ∈ l) : x <:+: joinSep sep l := by
  induction l with
  | nil => cases h
  | cons a t ih =>
    cases t with
    | nil =>
      rcases List.mem_cons.1 h with rfl | h'
      · exact ⟨[], [], by simp [joinSep]⟩
      · cases h'
    | cons b u =>
      rcases List.mem_cons.1 h with rfl | h'
      · exact ⟨[], sep ++ joinSep sep (b :: u), by simp [joinSep, List.append_assoc]⟩
      · obtain ⟨s, t', hs⟩ := ih h'
        exact ⟨a ++ sep ++ s, t', by simp [joinSep, ← hs, List.append_assoc]⟩

theorem isInfix_prBlock_of_fileSection (pr : PRDetail) (f : FileChange)
    (hf : f ∈ pr.files) (x : List Char) (hx : x <:+: fileSection f) :
    x <:+: prBlock true pr := by
  have hne : pr.files.isEmpty = false := by
    cases hfs : pr.files with
    | nil => rw [hfs] at hf; cases hf
    | cons a t => rfl
  have h1 : fileSection f <:+: (pr.files.map fileSection).flatten :=
    isInfix_flatten_of_mem (List.mem_map_of_mem _ hf)
  have h2 : x <:+: (pr.files.map fileSection).flatten := hx.trans h1
  obtain ⟨s, t, hs⟩ := h2
  refine ⟨prHeader pr ++ fileChangesHeader ++ s, t ++ "\n---\n".data, ?_⟩
  simp [prBlock, hne, ← hs, List.append_assoc]

theorem isInfix_buildPRContext (prs : List PRDetail) (pr : PRDetail)
    (hpr : pr ∈ prs) (x : List Char) (hx : x <:+: prBlock true pr) :
    x <:+: buildPRContext prs true := by
  rw [buildPRContext]
  exact hx.trans (isInfix_joinSep_of_mem nlSep (List.mem_map_of_mem _ hpr))

/-- C7: in the with-diffs rendering, a file record with non-empty diff
text has the diff text itself rendered exactly when its length is
strictly below 2000 characters, and the rendered block then occurs in
the built context; otherwise its section carries only the placeholder
naming the diff's character size, which occurs in the built context. -/
theorem fileSection_diff_inclusion_threshold (prs : List PRDetail)
    (pr : PRDetail) (f : FileChange) (p : List Char)
    (hpr : pr ∈ prs) (hf : f ∈ pr.files) (hp : f.patch = some p)
    (hne : p ≠ []) :
    (p.length < 2000 →
      fileSection f = fileMeta f ++ diffIncluded p ∧
      diffIncluded p <:+: buildPRContext prs true) ∧
    (2000 ≤ p.length →
      fileSection f = fileMeta f ++ diffOmitted p.length ∧
      diffOmitted p.length <:+: buildPRContext prs true) := by
  have hemp : p.isEmpty = false := by
    cases p with
    | nil => exact absurd rfl hne
    | cons a t => rfl
  constructor
  · intro hlen
    have heq : fileSection f = fileMeta f ++ diffIncluded p := by
      simp [fileSection, hp, hemp, hlen]
    refine ⟨heq, ?_⟩
    exact isInfix_buildPRContext prs pr hpr _
      (isInfix_prBlock_of_fileSection pr f hf _ ⟨fileMeta f, [], by simp [heq]⟩)
  · intro hlen
    have hnl : ¬ p.length < 2000 := not_lt.2 hlen
    have heq : fileSection f = fileMeta f ++ diffOmitted p.length := by
      simp [fileSection, hp, hemp, hnl]
    refine ⟨heq, ?_⟩
    exact isInfix_buildPRContext prs pr hpr _
      (isInfix_prBlock_of_fileSection pr f hf _ ⟨fileMeta f, [], by simp [heq]⟩)

def patchSmall : List Char := "@@ -1 +1 @@".data

def fileSample : FileChange :=
  { filename := "a.txt".data, status := "modified".data, additions := 1,
    deletions := 0, patch := some patchSmall }

def prWithFile : PRDetail :=
  { number := 7, title := [], user := { login := [] }, labels := [],
    body := none, changed_files := 1, files := [fileSample] }

/-- C7 witness: an 11-character diff is rendered verbatim and occurs in
the built context. -/
theorem fileSection_diff_inclusion_threshold_witness :
    fileSection fileSample = fileMeta fileSample ++ diffIncluded patchSmall ∧
    diffIncluded patchSmall <:+: buildPRContext [prWithFile] true :=
  (fileSection_diff_inclusion_threshold [prWithFile] prWithFile fileSample
    patchSmall (by decide) (by decide) rfl (by decide)).1 (by decide)

def csHeader : List Char :=
  "<details>\n<summary>📋 Customer Impact Summary</summary>\n\n".data

def csFooter : List Char := "\n\n</details>\n\n---\n\n".data

/-- The `csSummarySection` template literal of `updateReleaseDescription`
(src/index.js lines 372-381): a collapsible details block holding the
generated summary, followed by a horizontal rule. -/
def csSummarySection (summary : List Char) : List Char :=
  csHeader ++ summary ++ csFooter

/-- The merge performed by `updateReleaseDescription` (src/index.js line
384): `updatedBody = csSummarySection + (context.release.body || "")` —
the rendered block is prepended to the existing body. -/
def mergeReleaseBody (body block : List Char) : List Char :=
  csSummarySection block ++ body

/-- The bodies written to the external store by `updateReleaseDescription`
(src/index.js lines 386-391): exactly one unconditional `updateRelease`
call, with the merged body. -/
def updateReleaseWrites (body summary : List Char) : List (List Char) :=
  [mergeReleaseBody body summary]

def sampleSummary : List Char := "s".data

/-- C1 counterexample: applying the merge twice with the same rendered
block to the empty body does not equal applying it once — the collapsible
section is prepended a second time. -/
theorem mergeReleaseBody_not_idempotent_cex :
    mergeReleaseBody (mergeReleaseBody [] sampleSummary) sampleSummary ≠
      mergeReleaseBody [] sampleSummary := by decide

/-- C1 amended: the merge prepends the rendered section, so a second
application with the same block yields the section prepended again in
front of the first result; since the section is non-empty, the merge is
never idempotent. -/
theorem mergeReleaseBody_prepends_again (body blk : List Char) :
    mergeReleaseBody (mergeReleaseBody body blk) blk =
      csSummarySection blk ++ mergeReleaseBody body blk ∧
    mergeReleaseBody (mergeReleaseBody body blk) blk ≠
      mergeReleaseBody body blk := by
  refine ⟨rfl, ?_⟩
  intro h
  have hlen := congrArg List.length h
  simp only [mergeReleaseBody, csSummarySection, List.length_append] at hlen
  have h0 : 0 < csHeader.length := by decide
  omega

/-- C2: every body written to the external store differs from the body
that was read — the merged document strictly extends the original, so a
write never happens with an unchanged document (the condition "merged
result equals the original body" is never realised, and no write is
issued for it). -/
theorem updateReleaseWrites_only_changed (body summary w : List Char)
    (hw : w ∈ updateReleaseWrites body summary) : w ≠ body := by
  rw [updateReleaseWrites, List.mem_singleton] at hw
  subst hw
  intro h
  have hlen := congrArg List.length h
  simp only [mergeReleaseBody, csSummarySection, List.length_append] at hlen
  have h0 : 0 < csHeader.length := by decide
  omega

/-- C2 witness: the single write issued for the empty body differs from
that body. -/
theorem updateReleaseWrites_only_changed_witness :
    mergeReleaseBody [] sampleSummary ≠ [] :=
  updateReleaseWrites_only_changed [] sampleSummary
    (mergeReleaseBody [] sampleSummary) (by simp [updateReleaseWrites])
